import Mathlib

set_option maxRecDepth 100000

/-!
# Merge Resolution Engine — verification development

Shallow embedding of the merge/scoring/game-over core of the
YUAN_WATERMELON repository (src/src/game.ts — the `MergeManager` and the
`Game` loop of the current revision — together with the tuning constants of
src/game/merge and src/config.ts).

Modelling conventions:
* JS `number` values (positions, velocities, timestamps) are embedded as `ℚ`.
  The source compares `Math.sqrt s <= bound`; over the reals this is
  equivalent to `0 ≤ bound ∧ s ≤ bound ^ 2`, and the embedding uses that
  square form so every predicate stays decidable/executable.
* `performance.now()` is read several times inside one simulation step; a
  step is far shorter than every timing window involved (80 ms cooldown,
  1200 ms combo window), so one step is modelled with a single `now : ℚ`.
* Matter.js bodies are embedded as immutable `Fruit` records carrying the
  body id; JS reference equality between live bodies coincides with value
  equality because ids are unique.  Static bodies (walls, ground, ceiling)
  carry no `fruit` data and fail every fruit check in the source, so body
  lists here hold fruits only.
* Rendering, audio, DOM and localStorage effects are dropped; the `log`
  field is a ghost variable recording each executed merge so that theorems
  can quantify over "every executed merge".
-/

/-- 2-D vector (Matter.js `position` / `velocity`). -/
structure Vec where
  x : ℚ
  y : ℚ
deriving DecidableEq

/-- A live fruit body: `FruitBody` of src/src/game.ts.  `tier` and `radius`
mirror `body.fruit`, `merging` mirrors `body.plugin.merging` (an optional
boolean, absent ≡ false), `lastMergeAt` mirrors the nullable timestamp. -/
structure Fruit where
  id : ℕ
  tier : ℕ
  radius : ℚ
  lastMergeAt : Option ℚ
  position : Vec
  velocity : Vec
  merging : Bool
deriving DecidableEq

/-- src/game/merge constants (src/unnamed/part_000). -/
def MERGE_EPSILON_RATIO : ℚ := 15 / 100

def MERGE_COOLDOWN_MS : ℚ := 80

def MERGE_MAX_REL_V : ℚ := 9999

/-- One entry of the tier ladder (`TIER_CONFIG` in src/src/config.ts). -/
structure TierEntry where
  radius : ℚ
  mass : ℚ
deriving DecidableEq

/-- The tier ladder of src/src/config.ts (radius and mass per tier). -/
def TIER_CONFIG : List TierEntry :=
  [⟨16, 1⟩, ⟨22, 12/10⟩, ⟨30, 14/10⟩, ⟨40, 18/10⟩, ⟨52, 22/10⟩, ⟨64, 3⟩,
   ⟨78, 36/10⟩, ⟨92, 45/10⟩, ⟨108, 52/10⟩, ⟨124, 6⟩, ⟨140, 7⟩]

/-- Modelled from the spec: `getFruitRadius` lives in the newer config
module that is not under src/; per §3 of the spec the radius is derived
from the ladder entry at `tierIndex`. -/
def getFruitRadius (i : ℕ) : ℚ := (TIER_CONFIG.getD i ⟨0, 0⟩).radius

/-- SCORING.mergeBase (src/src/config.ts). -/
def mergeBase : ℤ := 10

/-- SCORING.comboWindowMs (src/src/config.ts). -/
def comboWindowMs : ℚ := 1200

/-- Squared distance between two points; the source computes
`Math.sqrt` of this quantity. -/
def sqDist (u v : Vec) : ℚ := (u.x - v.x) ^ 2 + (u.y - v.y) ^ 2

/-- Geometric overlap test of `MergeManager.isValidMergePair`
(src/src/game.ts lines 76-82): `dist <= rA + rB - eps` with
`eps = min rA rB * MERGE_EPSILON_RATIO`, in the equivalent square form. -/
def overlapOk (a b : Fruit) : Bool :=
  let rMin := min a.radius b.radius
  let mergeEps := rMin * MERGE_EPSILON_RATIO
  let needOverlap := a.radius + b.radius - mergeEps
  decide (0 ≤ needOverlap) && decide (sqDist a.position b.position ≤ needOverlap ^ 2)

/-- Relative-speed ceiling of `isValidMergePair` (lines 84-88):
`|vA - vB| <= MERGE_MAX_REL_V`, in the equivalent square form
(the bound is the nonnegative constant 9999). -/
def relVelOk (a b : Fruit) : Bool :=
  decide ((a.velocity.x - b.velocity.x) ^ 2 + (a.velocity.y - b.velocity.y) ^ 2
    ≤ MERGE_MAX_REL_V ^ 2)

/-- Cooldown test shared by `isValidMergePair` (lines 73-74) and
`MergeManager.process` (lines 105-106).  The source guards with JS
truthiness — `if (f.lastMergeAt && now - f.lastMergeAt < COOLDOWN)` — so a
null timestamp AND a timestamp equal to 0 both skip the cooldown check. -/
def cooldownOk (now : ℚ) (f : Fruit) : Bool :=
  match f.lastMergeAt with
  | none => true
  | some t => if t = 0 then true else decide (MERGE_COOLDOWN_MS ≤ now - t)

/-- `MergeManager.isValidMergePair` (src/src/game.ts lines 67-89).  The
`!a.fruit || !b.fruit` guard is vacuous here because the embedding's body
lists hold fruits only. -/
def isValidMergePair (now : ℚ) (a b : Fruit) : Bool :=
  decide (a.tier = b.tier) && !a.merging && !b.merging &&
  cooldownOk now a && cooldownOk now b &&
  overlapOk a b && relVelOk a b

/-- Matter `Query.region` bounds test: a body's AABB (circle bounds)
overlaps the query region. -/
def boundsOverlap (o : Fruit) (minx maxx miny maxy : ℚ) : Bool :=
  decide (o.position.x - o.radius ≤ maxx) && decide (minx ≤ o.position.x + o.radius) &&
  decide (o.position.y - o.radius ≤ maxy) && decide (miny ≤ o.position.y + o.radius)

/-- Proximity fallback of `MergeManager.collectCandidates`
(src/src/game.ts lines 47-64): for every fruit, query the region of side
`2 * (radius * 2)` around its center and pair it with every distinct fruit
passing `isValidMergePair`. -/
def proximityCandidates (now : ℚ) (bodies : List Fruit) : List (Fruit × Fruit) :=
  bodies.flatMap fun body =>
    let sr := body.radius * 2
    ((bodies.filter fun o =>
        boundsOverlap o (body.position.x - sr) (body.position.x + sr)
          (body.position.y - sr) (body.position.y + sr)).filter fun o =>
        decide (o ≠ body) && isValidMergePair now body o).map fun o => (body, o)

/-- `MergeManager.collectCandidates` (src/src/game.ts lines 22-65): the
event-driven contact pairs (collisionStart/collisionActive) filtered by
`isValidMergePair`, followed by the proximity-scan pairs. -/
def collectCandidates (now : ℚ) (contacts : List (Fruit × Fruit)) (bodies : List Fruit) :
    List (Fruit × Fruit) :=
  (contacts.filter fun p => isValidMergePair now p.1 p.2) ++ proximityCandidates now bodies

/-- Ghost record of one executed merge: the two sources and the successor. -/
structure MergeRec where
  a : Fruit
  b : Fruit
  succ : Fruit
deriving DecidableEq

/-- The `state` field of `Game`: RUNNING or GAME_OVER. -/
inductive GMode where
  | RUNNING : GMode
  | GAME_OVER : GMode
deriving DecidableEq

/-- The mutable state of `Game` (src/src/game.ts) that the merge engine,
scorer and game-over monitor touch, plus the ghost `log`. -/
structure GameState where
  bodies : List Fruit
  mergedThisFrame : List ℕ
  nextId : ℕ
  score : ℤ
  best : ℤ
  comboCount : ℤ
  lastMergeTime : ℚ
  overTimer : ℚ
  gameOver : Bool
  hasDroppedFruit : Bool
  mode : GMode
  paused : Bool
  dropperX : ℚ
  log : List MergeRec
deriving DecidableEq

/-- The successor fruit built by `createFruit(newTier, x, y, vx, vy)` at the
midpoint/mean of the pair (src/src/game.ts lines 127-138), with
`lastMergeAt` then set to the current time (line 138). -/
def mkSucc (now : ℚ) (newId : ℕ) (a b : Fruit) : Fruit :=
  { id := newId
    tier := a.tier + 1
    radius := getFruitRadius (a.tier + 1)
    lastMergeAt := some now
    position := ⟨(a.position.x + b.position.x) / 2, (a.position.y + b.position.y) / 2⟩
    velocity := ⟨(a.velocity.x + b.velocity.x) / 2, (a.velocity.y + b.velocity.y) / 2⟩
    merging := false }

/-- Execution of one accepted pair inside `MergeManager.process`
(src/src/game.ts lines 120-146) together with the scoring callback the
`Game.start` loop passes to it (lines 377-391): terminal guard, removal of
both sources, creation of the successor, combo/score/best update, and
bookkeeping of `mergedThisFrame`. -/
def execPair (now : ℚ) (st : GameState) (p : Fruit × Fruit) : GameState :=
  let newTier := p.1.tier + 1
  if TIER_CONFIG.length ≤ newTier then st
  else
    let succ := mkSucc now st.nextId p.1 p.2
    let bodies1 := (st.bodies.filter fun c => decide (c ≠ p.1)).filter fun c => decide (c ≠ p.2)
    let comboNew : ℤ := if now - st.lastMergeTime ≤ comboWindowMs then st.comboCount + 1 else 1
    let gained : ℚ := ((mergeBase : ℚ) * (newTier : ℚ)) * (comboNew : ℚ)
    let scoreNew := st.score + ⌊gained⌋
    let bestNew := if st.best < scoreNew then scoreNew else st.best
    { st with
      bodies := bodies1 ++ [succ]
      nextId := st.nextId + 1
      comboCount := comboNew
      lastMergeTime := now
      score := scoreNew
      best := bestNew
      mergedThisFrame := st.mergedThisFrame ++ [p.1.id, p.2.id, succ.id]
      log := st.log ++ [⟨p.1, p.2, succ⟩] }

/-- The pair-selection loop of one `MergeManager.process` pass
(src/src/game.ts lines 99-115): iterate the fixed candidate list, skipping
pairs that touch an id already used this pass, an id merged this frame, a
merging flag, or a fruit still in cooldown; the redundant `smallerId` guard
of line 110 is kept as in the source. -/
def selectGo (now : ℚ) (merged : List ℕ) :
    List (Fruit × Fruit) → List ℕ → List (Fruit × Fruit)
  | [], _ => []
  | p :: rest, used =>
    if used.contains p.1.id || used.contains p.2.id then
      selectGo now merged rest used
    else if merged.contains p.1.id || merged.contains p.2.id then
      selectGo now merged rest used
    else if p.1.merging || p.2.merging then
      selectGo now merged rest used
    else if !cooldownOk now p.1 then
      selectGo now merged rest used
    else if !cooldownOk now p.2 then
      selectGo now merged rest used
    else if used.contains (min p.1.id p.2.id) then
      selectGo now merged rest used
    else
      p :: selectGo now merged rest (p.1.id :: p.2.id :: used)

/-- The `while (true)` cascade loop of `MergeManager.process`
(src/src/game.ts lines 94-147), with explicit fuel since the source loop
has no iteration cap.  The boolean result is `true` when the loop reached
its only exit (`pairs.length === 0`) within the given fuel. -/
def processLoop (now : ℚ) (cands : List (Fruit × Fruit)) :
    ℕ → GameState → GameState × Bool
  | 0, st => (st, false)
  | Nat.succ n, st =>
    let sel := selectGo now st.mergedThisFrame cands []
    if sel.isEmpty then (st, true)
    else processLoop now cands n (sel.foldl (execPair now) st)

/-- One merge step of the fixed-timestep loop: `collectCandidates` (which
clears the candidate list and `mergedThisFrame`, lines 23-24) followed by
`process`.  The ghost log is reset so theorems can speak about the merges
executed in this step. -/
def stepMerges (now : ℚ) (contacts : List (Fruit × Fruit)) (st : GameState) (fuel : ℕ) :
    GameState × Bool :=
  processLoop now (collectCandidates now contacts st.bodies) fuel
    { st with mergedThisFrame := [], log := [] }

/-- Modelled from the spec: `WORLD.gameOverLineY` lives in the newer config
module that is not under src/; the game-over threshold line of the spec
(§4.7, configuration surface thresholdY), valued per the in-repo config's
`maxHeightY` of 110.  No claim depends on the numeric value. -/
def gameOverLineY : ℚ := 110

/-- Modelled from the spec: `WORLD.width` (playfield width) from the newer
config module not under src/; the in-repo config's logicalWidth is 900. -/
def worldWidth : ℚ := 900

/-- Modelled from the spec: `WORLD.spawnY` (drop height) from the newer
config module not under src/; the in-repo config's spawnY is 80. -/
def worldSpawnY : ℚ := 80

/-- The scan of `Game.updateGameOver` (src/src/game.ts lines 283-291): some
live fruit's top edge `position.y - getFruitRadius(tierIndex)` is at or
above (numerically ≤) the threshold line.  `plugin.tierIndex` always equals
`fruit.tier` in the source (both set in `createFruit`). -/
def anyOver (bodies : List Fruit) : Bool :=
  bodies.any fun b => decide (b.position.y - getFruitRadius b.tier ≤ gameOverLineY)

/-- `Game.updateGameOver` (src/src/game.ts lines 279-300) plus
`triggerGameOver` (lines 302-307): guarded by `hasDroppedFruit`; the
over-timer accumulates `dt` while `anyOver` holds and resets to zero
otherwise; the RUNNING to GAME_OVER transition fires when the accumulated
timer reaches 1000 ms and the game is not already over. -/
def updateGameOver (dt : ℚ) (st : GameState) : GameState :=
  if !st.hasDroppedFruit then st
  else if anyOver st.bodies then
    let t := st.overTimer + dt
    if 1000 ≤ t ∧ st.gameOver = false then
      { st with overTimer := t, gameOver := true, mode := GMode.GAME_OVER }
    else
      { st with overTimer := t }
  else
    { st with overTimer := 0 }

/-- `Game.restart` (src/src/game.ts lines 318-330): resets game-over flag,
over-timer, score, combo, last merge time, drop guard, mode, and (via
`resetWorldBounds`) the body population; `best` is untouched. -/
def restart (st : GameState) : GameState :=
  { st with
    gameOver := false
    overTimer := 0
    score := 0
    comboCount := 0
    lastMergeTime := 0
    hasDroppedFruit := false
    mode := GMode.RUNNING
    bodies := []
    mergedThisFrame := [] }

/-- `Game.dropFruit` (src/src/game.ts lines 267-277): no-op when over or
paused; otherwise spawns a fruit of the next tier at the clamped dropper x
and the spawn height (`createFruit` with zero velocity and null
`lastMergeAt`).  The randomly rolled `nextTierIndex` is a parameter. -/
def dropFruit (tier : ℕ) (st : GameState) : GameState :=
  if st.gameOver || st.paused then st
  else
    let radius := getFruitRadius tier
    let clampedX := max (radius + 4) (min (worldWidth - radius - 4) st.dropperX)
    let f : Fruit :=
      ⟨st.nextId, tier, radius, none, ⟨clampedX, worldSpawnY⟩, ⟨0, 0⟩, false⟩
    { st with
      bodies := st.bodies ++ [f]
      nextId := st.nextId + 1
      hasDroppedFruit := true }

/-- The frame-accumulator update of the fixed-timestep loop
(src/src/game.ts lines 359-360): `acc += dt` followed by the
spiral-of-death cap `if (acc > 1000) acc = 1000`.  No clamping of
non-positive `dt` exists in the source. -/
def tickAcc (acc dt : ℚ) : ℚ :=
  let a := acc + dt
  if 1000 < a then 1000 else a

/-! ## Concrete states used by witnesses and counterexamples -/

/-- A tier-0 fruit at rest (the spec §8 scenario, radius 16). -/
def fA : Fruit := ⟨1, 0, 16, none, ⟨100, 200⟩, ⟨0, 0⟩, false⟩

/-- A second tier-0 fruit, center distance 10 from `fA`. -/
def fB : Fruit := ⟨2, 0, 16, none, ⟨110, 200⟩, ⟨0, 0⟩, false⟩

/-- A session state holding exactly `fA` and `fB`, no prior merges. -/
def st0 : GameState :=
  { bodies := [fA, fB], mergedThisFrame := [], nextId := 3, score := 0, best := 0,
    comboCount := 0, lastMergeTime := 0, overTimer := 0, gameOver := false,
    hasDroppedFruit := true, mode := GMode.RUNNING, paused := false, dropperX := 450,
    log := [] }

/-- The merge record produced by running the merge step on `st0`. -/
def eAB : MergeRec := ⟨fA, fB, mkSucc 500 3 fA fB⟩

/-- A tier-0 fruit that last merged at time 100 (a nonzero timestamp). -/
def fC : Fruit := ⟨4, 0, 16, some 100, ⟨300, 200⟩, ⟨0, 0⟩, false⟩

/-- An overlapping tier-0 partner for `fC`. -/
def fD : Fruit := ⟨5, 0, 16, none, ⟨310, 200⟩, ⟨0, 0⟩, false⟩

/-- A session state holding exactly `fC` and `fD`. -/
def stCD : GameState := { st0 with bodies := [fC, fD], nextId := 6 }

/-- The merge record produced by running the merge step on `stCD` at 500. -/
def eCD : MergeRec := ⟨fC, fD, mkSucc 500 6 fC fD⟩

/-- A tier-0 fruit whose `lastMergeAt` is the timestamp 0 — a JS-falsy
value, so the source's truthiness-guarded cooldown check skips it. -/
def fZ : Fruit := ⟨7, 0, 16, some 0, ⟨500, 200⟩, ⟨0, 0⟩, false⟩

/-- An overlapping tier-0 partner for `fZ`. -/
def fW : Fruit := ⟨8, 0, 16, none, ⟨510, 200⟩, ⟨0, 0⟩, false⟩

/-- A session state holding exactly `fZ` and `fW`. -/
def stZW : GameState := { st0 with bodies := [fZ, fW], nextId := 9 }

/-- The merge record produced by running the merge step on `stZW` at
time 40, i.e. 40 ms after `fZ` merged — well inside the 80 ms cooldown. -/
def eZW : MergeRec := ⟨fZ, fW, mkSucc 40 9 fZ fW⟩

/-- A terminal-tier (tier 10, radius 140) fruit. -/
def tA : Fruit := ⟨10, 10, 140, none, ⟨100, 1000⟩, ⟨0, 0⟩, false⟩

/-- A second terminal-tier fruit overlapping `tA`. -/
def tB : Fruit := ⟨11, 10, 140, none, ⟨180, 1000⟩, ⟨0, 0⟩, false⟩

/-- A state holding two overlapping terminal-tier fruits. -/
def badSt : GameState := { st0 with bodies := [tA, tB], nextId := 12 }

/-- The candidate list the contact source produces for `badSt` (the
proximity scan alone already reports the overlapping terminal pair). -/
def badCands : List (Fruit × Fruit) := collectCandidates 2000 [] badSt.bodies

/-- A tier-1 fruit (for the second, combo, merge of the C7 scenario). -/
def gC : Fruit := ⟨20, 1, 22, none, ⟨600, 200⟩, ⟨0, 0⟩, false⟩

/-- An overlapping tier-1 partner for `gC`. -/
def gD : Fruit := ⟨21, 1, 22, none, ⟨610, 200⟩, ⟨0, 0⟩, false⟩

/-- A dropped fruit whose top edge (200 - 16 = 184) is below (numerically
greater than) the threshold line 110. -/
def lowFruit : Fruit := ⟨30, 0, 16, none, ⟨450, 200⟩, ⟨0, 0⟩, false⟩

/-- A dropped fruit whose top edge (100 - 16 = 84) is at or above the
threshold line 110. -/
def highFruit : Fruit := ⟨31, 0, 16, none, ⟨450, 100⟩, ⟨0, 0⟩, false⟩

/-- A running state with one fruit over the line and a zero over-timer. -/
def stHigh : GameState := { st0 with bodies := [highFruit], nextId := 32 }

/-- `stHigh` after 50 ms of over-timer accumulation. -/
def stHigh50 : GameState := { stHigh with overTimer := 50 }

/-! ## Helper lemmas about the merge pipeline -/

lemma mem_selectGo (now : ℚ) (merged : List ℕ) :
    ∀ (cands : List (Fruit × Fruit)) (used : List ℕ) (p : Fruit × Fruit),
      p ∈ selectGo now merged cands used →
      p ∈ cands ∧ cooldownOk now p.1 = true ∧ cooldownOk now p.2 = true := by
  intro cands
  induction cands with
  | nil =>
    intro used p h
    simp [selectGo] at h
  | cons q rest ih =>
    intro used p h
    simp only [selectGo] at h
    split at h
    case isTrue =>
      rcases ih _ _ h with ⟨h1, h2, h3⟩
      exact ⟨List.mem_cons_of_mem _ h1, h2, h3⟩
    split at h
    case isTrue =>
      rcases ih _ _ h with ⟨h1, h2, h3⟩
      exact ⟨List.mem_cons_of_mem _ h1, h2, h3⟩
    split at h
    case isTrue =>
      rcases ih _ _ h with ⟨h1, h2, h3⟩
      exact ⟨List.mem_cons_of_mem _ h1, h2, h3⟩
    split at h
    case isTrue =>
      rcases ih _ _ h with ⟨h1, h2, h3⟩
      exact ⟨List.mem_cons_of_mem _ h1, h2, h3⟩
    split at h
    case isTrue =>
      rcases ih _ _ h with ⟨h1, h2, h3⟩
      exact ⟨List.mem_cons_of_mem _ h1, h2, h3⟩
    split at h
    case isTrue =>
      rcases ih _ _ h with ⟨h1, h2, h3⟩
      exact ⟨List.mem_cons_of_mem _ h1, h2, h3⟩
    rename_i hu hm hflag hc1 hc2 hmin
    rcases List.mem_cons.mp h with rfl | h2
    · refine ⟨List.mem_cons_self _ _, ?_, ?_⟩
      · simpa using hc1
      · simpa using hc2
    · rcases ih _ _ h2 with ⟨h1, h2, h3⟩
      exact ⟨List.mem_cons_of_mem _ h1, h2, h3⟩

lemma mem_log_execPair {now : ℚ} {st : GameState} {p : Fruit × Fruit} {e : MergeRec}
    (h : e ∈ (execPair now st p).log) :
    e ∈ st.log ∨ (p.1.tier + 1 < TIER_CONFIG.length ∧ e.a = p.1 ∧ e.b = p.2 ∧
      e.succ = mkSucc now st.nextId p.1 p.2) := by
  simp only [execPair] at h
  split at h
  · exact Or.inl h
  · rename_i hguard
    simp only [List.mem_append, List.mem_singleton] at h
    rcases h with h | rfl
    · exact Or.inl h
    · exact Or.inr ⟨by omega, rfl, rfl, rfl⟩

lemma mem_log_foldl {now : ℚ} :
    ∀ (ps : List (Fruit × Fruit)) (st : GameState) (e : MergeRec),
      e ∈ (ps.foldl (execPair now) st).log →
      e ∈ st.log ∨ ∃ p ∈ ps, p.1.tier + 1 < TIER_CONFIG.length ∧ e.a = p.1 ∧ e.b = p.2 ∧
        ∃ k, e.succ = mkSucc now k p.1 p.2 := by
  intro ps
  induction ps with
  | nil =>
    intro st e h
    exact Or.inl h
  | cons q rest ih =>
    intro st e h
    simp only [List.foldl_cons] at h
    rcases ih _ _ h with h1 | ⟨p, hp, hrest⟩
    · rcases mem_log_execPair h1 with h2 | ⟨hg, ha, hb, hs⟩
      · exact Or.inl h2
      · exact Or.inr ⟨q, List.mem_cons_self _ _, hg, ha, hb, st.nextId, hs⟩
    · exact Or.inr ⟨p, List.mem_cons_of_mem _ hp, hrest⟩

lemma mem_log_processLoop {now : ℚ} {cands : List (Fruit × Fruit)} :
    ∀ (n : ℕ) (st : GameState) (e : MergeRec),
      e ∈ (processLoop now cands n st).1.log →
      e ∈ st.log ∨ ∃ p ∈ cands,
        cooldownOk now p.1 = true ∧ cooldownOk now p.2 = true ∧
        p.1.tier + 1 < TIER_CONFIG.length ∧ e.a = p.1 ∧ e.b = p.2 ∧
        ∃ k, e.succ = mkSucc now k p.1 p.2 := by
  intro n
  induction n with
  | zero =>
    intro st e h
    exact Or.inl h
  | succ m ih =>
    intro st e h
    simp only [processLoop] at h
    split at h
    · exact Or.inl h
    · rcases ih _ _ h with h1 | ⟨p, hp, hrest⟩
      · rcases mem_log_foldl _ _ _ h1 with h2 | ⟨p, hpsel, hg, ha, hb, hs⟩
        · exact Or.inl h2
        · have hmem := mem_selectGo now st.mergedThisFrame cands [] p hpsel
          exact Or.inr ⟨p, hmem.1, hmem.2.1, hmem.2.2, hg, ha, hb, hs⟩
      · exact Or.inr ⟨p, hp, hrest⟩

lemma mem_collectCandidates {now : ℚ} {contacts : List (Fruit × Fruit)} {bodies : List Fruit}
    {p : Fruit × Fruit} (h : p ∈ collectCandidates now contacts bodies) :
    isValidMergePair now p.1 p.2 = true := by
  simp only [collectCandidates, List.mem_append] at h
  rcases h with h | h
  · exact (List.mem_filter.mp h).2
  · simp only [proximityCandidates, List.mem_flatMap] at h
    obtain ⟨body, hbody, hmem⟩ := h
    simp only [List.mem_map] at hmem
    obtain ⟨o, ho, rfl⟩ := hmem
    have hf := (List.mem_filter.mp ho).2
    simp only [Bool.and_eq_true] at hf
    exact hf.2

lemma isValid_parts {now : ℚ} {a b : Fruit} (h : isValidMergePair now a b = true) :
    a.tier = b.tier ∧ a.merging = false ∧ b.merging = false ∧
    cooldownOk now a = true ∧ cooldownOk now b = true ∧
    overlapOk a b = true ∧ relVelOk a b = true := by
  simp only [isValidMergePair, Bool.and_eq_true, decide_eq_true_eq,
    Bool.not_eq_true'] at h
  tauto

lemma mem_log_stepMerges {now : ℚ} {contacts : List (Fruit × Fruit)} {st : GameState}
    {fuel : ℕ} {e : MergeRec} (h : e ∈ (stepMerges now contacts st fuel).1.log) :
    ∃ p ∈ collectCandidates now contacts st.bodies,
      isValidMergePair now p.1 p.2 = true ∧
      cooldownOk now p.1 = true ∧ cooldownOk now p.2 = true ∧
      p.1.tier + 1 < TIER_CONFIG.length ∧ e.a = p.1 ∧ e.b = p.2 ∧
      ∃ k, e.succ = mkSucc now k p.1 p.2 := by
  unfold stepMerges at h
  rcases mem_log_processLoop _ _ _ h with h1 | ⟨p, hp, h2, h3, h4, h5, h6, h7⟩
  · simp at h1
  · exact ⟨p, hp, mem_collectCandidates hp, h2, h3, h4, h5, h6, h7⟩

lemma filter_ne_of_not_mem {α : Type} [DecidableEq α] {l : List α} {a : α}
    (ha : a ∉ l) : (l.filter fun c => decide (c ≠ a)) = l := by
  apply List.filter_eq_self.mpr
  intro c hc
  exact decide_eq_true fun h => ha (h ▸ hc)

lemma length_filter_ne {α : Type} [DecidableEq α] :
    ∀ {l : List α} {a : α}, l.Nodup → a ∈ l →
      (l.filter fun c => decide (c ≠ a)).length = l.length - 1 := by
  intro l
  induction l with
  | nil =>
    intro a _ ha
    simp at ha
  | cons x xs ih =>
    intro a hnd ha
    rcases List.mem_cons.mp ha with rfl | hmem
    · have hnot : a ∉ xs := (List.nodup_cons.mp hnd).1
      have h1 : List.filter (fun c => decide (c ≠ a)) (a :: xs) =
          List.filter (fun c => decide (c ≠ a)) xs := by
        simp [List.filter_cons]
      rw [h1, filter_ne_of_not_mem hnot]
      simp
    · have hxa : x ≠ a := by
        rintro rfl
        exact (List.nodup_cons.mp hnd).1 hmem
      have hlen : 1 ≤ xs.length := List.length_pos.mpr (List.ne_nil_of_mem hmem)
      have h1 : List.filter (fun c => decide (c ≠ a)) (x :: xs) =
          x :: List.filter (fun c => decide (c ≠ a)) xs := by
        simp [List.filter_cons, hxa]
      rw [h1]
      simp only [List.length_cons, ih (List.nodup_cons.mp hnd).2 hmem]
      omega

lemma mem_filter_ne {α : Type} [DecidableEq α] {l : List α} {c a : α} :
    c ∈ (l.filter fun x => decide (x ≠ a)) ↔ c ∈ l ∧ c ≠ a := by
  simp [List.mem_filter]

lemma nodup_filter_ne {α : Type} [DecidableEq α] {l : List α} {a : α}
    (h : l.Nodup) : (l.filter fun c => decide (c ≠ a)).Nodup :=
  h.filter _

lemma best_le_execPair (now : ℚ) (st : GameState) (p : Fruit × Fruit) :
    st.best ≤ (execPair now st p).best := by
  simp only [execPair]
  split
  · exact le_rfl
  · dsimp only
    split <;> omega

lemma best_le_foldl (now : ℚ) :
    ∀ (ps : List (Fruit × Fruit)) (st : GameState),
      st.best ≤ (ps.foldl (execPair now) st).best := by
  intro ps
  induction ps with
  | nil =>
    intro st
    exact le_rfl
  | cons q rest ih =>
    intro st
    exact le_trans (best_le_execPair now st q) (ih _)

lemma best_le_processLoop (now : ℚ) (cands : List (Fruit × Fruit)) :
    ∀ (n : ℕ) (st : GameState), st.best ≤ (processLoop now cands n st).1.best := by
  intro n
  induction n with
  | zero =>
    intro st
    exact le_rfl
  | succ m ih =>
    intro st
    simp only [processLoop]
    split
    · exact le_rfl
    · exact le_trans (best_le_foldl now _ st) (ih _)

lemma floor_int_mul (m : ℤ) (n : ℕ) (c : ℤ) :
    ⌊((m : ℚ) * (n : ℚ)) * (c : ℚ)⌋ = m * n * c := by
  have h : ((m : ℚ) * (n : ℚ)) * (c : ℚ) = ((m * n * c : ℤ) : ℚ) := by
    push_cast
    ring
  rw [h, Int.floor_intCast]

lemma updateGameOver_not_dropped {dt : ℚ} {st : GameState}
    (h : st.hasDroppedFruit = false) : updateGameOver dt st = st := by
  simp [updateGameOver, h]

lemma updateGameOver_accum {dt : ℚ} {st : GameState} (h1 : st.hasDroppedFruit = true)
    (h2 : anyOver st.bodies = true) :
    (updateGameOver dt st).overTimer = st.overTimer + dt := by
  simp only [updateGameOver, h1, Bool.not_true, Bool.false_eq_true, if_false, h2,
    if_true]
  split <;> rfl

lemma updateGameOver_trigger {dt : ℚ} {st : GameState} (h1 : st.hasDroppedFruit = true)
    (h2 : anyOver st.bodies = true) (hgo : st.gameOver = false)
    (hmode : st.mode = GMode.RUNNING) :
    ((updateGameOver dt st).mode = GMode.GAME_OVER ↔ 1000 ≤ st.overTimer + dt) ∧
    ((updateGameOver dt st).gameOver = true ↔ 1000 ≤ st.overTimer + dt) := by
  simp only [updateGameOver, h1, Bool.not_true, Bool.false_eq_true, if_false, h2,
    if_true]
  split
  · rename_i h
    simp [h.1]
  · rename_i h
    have hnot : ¬ (1000 ≤ st.overTimer + dt) := fun hc => h ⟨hc, hgo⟩
    simp [hmode, hgo, hnot]

lemma updateGameOver_reset {dt : ℚ} {st : GameState} (h1 : st.hasDroppedFruit = true)
    (h2 : anyOver st.bodies = false) :
    (updateGameOver dt st).overTimer = 0 ∧
    (updateGameOver dt st).gameOver = st.gameOver ∧
    (updateGameOver dt st).mode = st.mode := by
  simp [updateGameOver, h1, h2]

lemma updateGameOver_best {dt : ℚ} {st : GameState} :
    (updateGameOver dt st).best = st.best := by
  simp only [updateGameOver]
  split
  · rfl
  · split
    · split <;> rfl
    · rfl

/-! ## Claim theorems -/

/-- C1: every executed merge of an accepted pair (A, B) at tier t removes
exactly the two source Fruits A and B from the live body set and adds
exactly one new Fruit whose tierIndex is t + 1; every other Fruit is
carried over unchanged, so no tierIndex is ever changed in place. -/
theorem merge_conservation (now : ℚ) (st : GameState) (a b : Fruit)
    (ha : a ∈ st.bodies) (hb : b ∈ st.bodies) (hne : a ≠ b)
    (htier : a.tier = b.tier) (hterm : a.tier + 1 < TIER_CONFIG.length)
    (hnodup : st.bodies.Nodup) :
    (execPair now st (a, b)).bodies =
      ((st.bodies.filter fun c => decide (c ≠ a)).filter fun c => decide (c ≠ b))
        ++ [mkSucc now st.nextId a b] ∧
    (mkSucc now st.nextId a b).tier = a.tier + 1 ∧
    a ∉ (execPair now st (a, b)).bodies ∧
    b ∉ (execPair now st (a, b)).bodies ∧
    mkSucc now st.nextId a b ∈ (execPair now st (a, b)).bodies ∧
    (∀ c, c ∈ (execPair now st (a, b)).bodies →
      c = mkSucc now st.nextId a b ∨ c ∈ st.bodies) ∧
    (∀ c, c ∈ st.bodies → c ≠ a → c ≠ b → c ∈ (execPair now st (a, b)).bodies) ∧
    (execPair now st (a, b)).bodies.length = st.bodies.length - 1 := by
  have hguard : ¬ (TIER_CONFIG.length ≤ a.tier + 1) := by omega
  have hbodies : (execPair now st (a, b)).bodies =
      ((st.bodies.filter fun c => decide (c ≠ a)).filter fun c => decide (c ≠ b))
        ++ [mkSucc now st.nextId a b] := by
    simp only [execPair, if_neg hguard]
  have hsa : mkSucc now st.nextId a b ≠ a := by
    intro h
    have h2 := congrArg Fruit.tier h
    simp only [mkSucc] at h2
    omega
  have hsb : mkSucc now st.nextId a b ≠ b := by
    intro h
    have h2 := congrArg Fruit.tier h
    simp only [mkSucc] at h2
    omega
  refine ⟨hbodies, rfl, ?_, ?_, ?_, ?_, ?_, ?_⟩
  · intro hmem
    rw [hbodies] at hmem
    rcases List.mem_append.mp hmem with h | h
    · exact (mem_filter_ne.mp (mem_filter_ne.mp h).1).2 rfl
    · exact hsa (List.mem_singleton.mp h).symm
  · intro hmem
    rw [hbodies] at hmem
    rcases List.mem_append.mp hmem with h | h
    · exact (mem_filter_ne.mp h).2 rfl
    · exact hsb (List.mem_singleton.mp h).symm
  · rw [hbodies]
    simp
  · intro c hc
    rw [hbodies] at hc
    rcases List.mem_append.mp hc with h | h
    · exact Or.inr (mem_filter_ne.mp (mem_filter_ne.mp h).1).1
    · exact Or.inl (List.mem_singleton.mp h)
  · intro c hc hca hcb
    rw [hbodies]
    exact List.mem_append.mpr (Or.inl
      (mem_filter_ne.mpr ⟨mem_filter_ne.mpr ⟨hc, hca⟩, hcb⟩))
  · have hnd1 : (st.bodies.filter fun c => decide (c ≠ a)).Nodup := nodup_filter_ne hnodup
    have hbmem1 : b ∈ st.bodies.filter fun c => decide (c ≠ a) :=
      mem_filter_ne.mpr ⟨hb, hne.symm⟩
    have hlen1 := length_filter_ne hnodup ha
    have hlen2 := length_filter_ne hnd1 hbmem1
    have hpos : 0 < (st.bodies.filter fun c => decide (c ≠ a)).length :=
      List.length_pos.mpr (List.ne_nil_of_mem hbmem1)
    rw [hbodies]
    simp only [List.length_append, List.length_singleton, hlen2, hlen1]
    omega

/-- Concrete instance of `merge_conservation`: merging the two tier-0
fruits of `st0` leaves one body (two removed, one added). -/
theorem merge_conservation_instance :
    fA ∈ st0.bodies ∧ fB ∈ st0.bodies ∧ fA ≠ fB ∧ fA.tier = fB.tier ∧
    fA.tier + 1 < TIER_CONFIG.length ∧ st0.bodies.Nodup ∧
    (execPair 500 st0 (fA, fB)).bodies.length = st0.bodies.length - 1 :=
  ⟨by decide, by decide, by decide, by decide, by decide, by decide,
    (merge_conservation 500 st0 fA fB (by decide) (by decide) (by decide)
      (by decide) (by decide) (by decide)).2.2.2.2.2.2.2⟩

/-- C2: terminal immunity — in any merge step, no executed merge has a
participant at the highest tier (index TIER_CONFIG.length - 1): the
terminal guard of `process` skips such pairs before execution. -/
theorem terminal_immunity (now : ℚ) (contacts : List (Fruit × Fruit)) (st : GameState)
    (fuel : ℕ) (e : MergeRec) (he : e ∈ (stepMerges now contacts st fuel).1.log) :
    e.a.tier ≠ TIER_CONFIG.length - 1 ∧ e.b.tier ≠ TIER_CONFIG.length - 1 := by
  obtain ⟨p, hp, hvalid, hc1, hc2, hterm, ha, hb, k, hs⟩ := mem_log_stepMerges he
  have htier := (isValid_parts hvalid).1
  rw [ha, hb]
  refine ⟨by omega, ?_⟩
  rw [← htier]
  omega

/-- Concrete instance of `terminal_immunity`: the merge executed on `st0`
has no terminal-tier participant. -/
theorem terminal_immunity_instance :
    eAB ∈ (stepMerges 500 [] st0 3).1.log ∧ eAB.a.tier ≠ TIER_CONFIG.length - 1 :=
  ⟨of_decide_eq_true (by with_unfolding_all rfl),
    (terminal_immunity 500 [] st0 3 eAB (of_decide_eq_true (by with_unfolding_all rfl))).1⟩

/-- C3 counterexample: at time 40 the fruit `fZ` has `lastMergeAt = 0`, so
`now - lastMergeAt = 40 < 80` is inside the cooldown window, yet the merge
step executes a merge with `fZ` as a participant — the source's
truthiness-guarded check (`lastMergeAt && ...`) skips the timestamp 0. -/
theorem cooldown_zero_bypass :
    fZ.lastMergeAt = some 0 ∧ (40 : ℚ) - 0 < MERGE_COOLDOWN_MS ∧
    (stepMerges 40 [] stZW 2).1.log = [eZW] ∧ eZW.a = fZ :=
  of_decide_eq_true (by with_unfolding_all rfl)

/-- C3 (amended): a participant of an executed merge whose `lastMergeAt`
is present and nonzero always satisfies now - lastMergeAt ≥ cooldownMs;
the values null and 0 bypass the check via JS truthiness. -/
theorem cooldown_enforced_nonzero (now : ℚ) (contacts : List (Fruit × Fruit))
    (st : GameState) (fuel : ℕ) (e : MergeRec)
    (he : e ∈ (stepMerges now contacts st fuel).1.log)
    (f : Fruit) (hf : f = e.a ∨ f = e.b) (t : ℚ)
    (ht : f.lastMergeAt = some t) (ht0 : t ≠ 0) :
    MERGE_COOLDOWN_MS ≤ now - t := by
  obtain ⟨p, hp, hvalid, hc1, hc2, hterm, ha, hb, _⟩ := mem_log_stepMerges he
  have hcd : cooldownOk now f = true := by
    rcases hf with rfl | rfl
    · rw [ha]
      exact hc1
    · rw [hb]
      exact hc2
  simp only [cooldownOk, ht, if_neg ht0, decide_eq_true_eq] at hcd
  exact hcd

/-- Concrete instance of `cooldown_enforced_nonzero`: `fC` merged 400 ms
before the step, well past the 80 ms cooldown. -/
theorem cooldown_enforced_nonzero_instance :
    eCD ∈ (stepMerges 500 [] stCD 2).1.log ∧ fC.lastMergeAt = some 100 ∧
    (100 : ℚ) ≠ 0 ∧ MERGE_COOLDOWN_MS ≤ (500 : ℚ) - 100 :=
  ⟨of_decide_eq_true (by with_unfolding_all rfl), by decide, by decide,
    cooldown_enforced_nonzero 500 [] stCD 2 eCD
      (of_decide_eq_true (by with_unfolding_all rfl)) fC (Or.inl rfl) 100
      rfl (by decide)⟩

/-- C4: on `badSt` — two overlapping terminal-tier fruits whose pair the
contact source itself reports (`badCands`) — the `process` cascade loop
re-selects the same terminal pair on every pass, executes nothing, and
never reaches its only exit condition, for any number of iterations. -/
theorem terminal_pair_loop_never_exits :
    ∀ n : ℕ, (processLoop 2000 badCands n badSt).2 = false := by
  intro n
  induction n with
  | zero => rfl
  | succ m ih =>
    have hsel : selectGo 2000 badSt.mergedThisFrame badCands [] = [(tA, tB)] := by
      with_unfolding_all rfl
    have hfold : [(tA, tB)].foldl (execPair 2000) badSt = badSt := by
      with_unfolding_all rfl
    simp only [processLoop, hsel, hfold, List.isEmpty_cons, Bool.false_eq_true,
      if_false]
    exact ih

/-- C5: every executed merge pair satisfied, at candidate-collection time,
both the geometric-overlap condition d ≤ rA + rB - eps with
eps = 0.15 · min(rA, rB), and the relative-speed ceiling
mapsto maxRelativeVelocity; a pair failing either is never merged. -/
theorem eligibility_conditions (now : ℚ) (contacts : List (Fruit × Fruit))
    (st : GameState) (fuel : ℕ) (e : MergeRec)
    (he : e ∈ (stepMerges now contacts st fuel).1.log) :
    overlapOk e.a e.b = true ∧ relVelOk e.a e.b = true := by
  obtain ⟨p, hp, hvalid, hc1, hc2, hterm, ha, hb, hs⟩ := mem_log_stepMerges he
  have h := isValid_parts hvalid
  rw [ha, hb]
  exact ⟨h.2.2.2.2.2.1, h.2.2.2.2.2.2⟩

/-- Concrete instance of `eligibility_conditions` on the `st0` merge. -/
theorem eligibility_conditions_instance :
    eAB ∈ (stepMerges 500 [] st0 3).1.log ∧
    overlapOk eAB.a eAB.b = true ∧ relVelOk eAB.a eAB.b = true :=
  ⟨of_decide_eq_true (by with_unfolding_all rfl),
    eligibility_conditions 500 [] st0 3 eAB (of_decide_eq_true (by with_unfolding_all rfl))⟩

/-- C6: the successor of every executed merge is created exactly at the
midpoint of the two source positions, with velocity exactly the arithmetic
mean of the two source velocities. -/
theorem successor_midpoint_mean (now : ℚ) (contacts : List (Fruit × Fruit))
    (st : GameState) (fuel : ℕ) (e : MergeRec)
    (he : e ∈ (stepMerges now contacts st fuel).1.log) :
    e.succ.position = ⟨(e.a.position.x + e.b.position.x) / 2,
      (e.a.position.y + e.b.position.y) / 2⟩ ∧
    e.succ.velocity = ⟨(e.a.velocity.x + e.b.velocity.x) / 2,
      (e.a.velocity.y + e.b.velocity.y) / 2⟩ := by
  obtain ⟨p, hp, hvalid, hc1, hc2, hterm, ha, hb, k, hs⟩ := mem_log_stepMerges he
  rw [ha, hb, hs]
  exact ⟨rfl, rfl⟩

/-- Concrete instance of `successor_midpoint_mean` on the `st0` merge. -/
theorem successor_midpoint_mean_instance :
    eAB ∈ (stepMerges 500 [] st0 3).1.log ∧
    eAB.succ.position = ⟨(eAB.a.position.x + eAB.b.position.x) / 2,
      (eAB.a.position.y + eAB.b.position.y) / 2⟩ :=
  ⟨of_decide_eq_true (by with_unfolding_all rfl),
    (successor_midpoint_mean 500 [] st0 3 eAB
      (of_decide_eq_true (by with_unfolding_all rfl))).1⟩

/-- C7: on each executed merge at time now of a source-tier-t pair, the
combo counter becomes comboCount + 1 when now - lastMergeTime is within the
1200 ms window and 1 otherwise, and the score grows by exactly
floor(mergeBase · (t+1) · comboCount); in particular the first merge of the
`st0` session (two tier-0 pieces) adds floor(10·1·1) = 10 and a second
merge at tier 1 within the window adds floor(10·2·2) = 40, to 50. -/
theorem score_combo_formula (now : ℚ) (st : GameState) (p : Fruit × Fruit)
    (hterm : p.1.tier + 1 < TIER_CONFIG.length) :
    (execPair now st p).comboCount =
      (if now - st.lastMergeTime ≤ comboWindowMs then st.comboCount + 1 else 1) ∧
    (execPair now st p).score =
      st.score + mergeBase * (p.1.tier + 1 : ℕ) * (execPair now st p).comboCount ∧
    (execPair now st p).lastMergeTime = now ∧
    (execPair 500 st0 (fA, fB)).score = 10 ∧
    (execPair 500 st0 (fA, fB)).comboCount = 1 ∧
    (execPair 1200 (execPair 500 st0 (fA, fB)) (gC, gD)).comboCount = 2 ∧
    (execPair 1200 (execPair 500 st0 (fA, fB)) (gC, gD)).score = 50 := by
  have hguard : ¬ (TIER_CONFIG.length ≤ p.1.tier + 1) := by omega
  refine ⟨?_, ?_, ?_, ?_, ?_, ?_, ?_⟩
  · simp only [execPair, if_neg hguard]
  · simp only [execPair, if_neg hguard]
    rw [floor_int_mul]
  · simp only [execPair, if_neg hguard]
  · with_unfolding_all rfl
  · with_unfolding_all rfl
  · with_unfolding_all rfl
  · with_unfolding_all rfl

/-- Concrete instance of `score_combo_formula`: the first merge of the
`st0` session yields a score of 10. -/
theorem score_combo_formula_instance :
    fA.tier + 1 < TIER_CONFIG.length ∧ (execPair 500 st0 (fA, fB)).score = 10 :=
  ⟨by decide, (score_combo_formula 500 st0 (fA, fB) (by decide)).2.2.2.1⟩

/-- C8: the game-over monitor is inert before the first drop; while some
fruit's top edge is at or above the threshold line the over-timer
accumulates dt, otherwise it resets to zero; RUNNING transitions to
GAME_OVER exactly when the accumulated timer reaches the 1000 ms debounce;
and crossing for 999 ms then dropping below leaves the state RUNNING,
while crossing for 1000 ms triggers GAME_OVER. -/
theorem gameOver_debounce (dt : ℚ) (st : GameState) :
    (st.hasDroppedFruit = false → updateGameOver dt st = st) ∧
    (st.hasDroppedFruit = true → anyOver st.bodies = true →
      (updateGameOver dt st).overTimer = st.overTimer + dt ∧
      (st.gameOver = false → st.mode = GMode.RUNNING →
        ((updateGameOver dt st).mode = GMode.GAME_OVER ↔ 1000 ≤ st.overTimer + dt) ∧
        ((updateGameOver dt st).gameOver = true ↔ 1000 ≤ st.overTimer + dt))) ∧
    (st.hasDroppedFruit = true → anyOver st.bodies = false →
      (updateGameOver dt st).overTimer = 0 ∧
      (updateGameOver dt st).gameOver = st.gameOver ∧
      (updateGameOver dt st).mode = st.mode) ∧
    (updateGameOver 999 stHigh).overTimer = 999 ∧
    (updateGameOver 999 stHigh).mode = GMode.RUNNING ∧
    (updateGameOver 5 { updateGameOver 999 stHigh with bodies := [lowFruit] }).overTimer
      = 0 ∧
    (updateGameOver 5 { updateGameOver 999 stHigh with bodies := [lowFruit] }).mode
      = GMode.RUNNING ∧
    (updateGameOver 1000 stHigh).mode = GMode.GAME_OVER := by
  refine ⟨?_, ?_, ?_, ?_, ?_, ?_, ?_, ?_⟩
  · exact updateGameOver_not_dropped
  · intro h1 h2
    exact ⟨updateGameOver_accum h1 h2, fun hgo hmode =>
      updateGameOver_trigger h1 h2 hgo hmode⟩
  · intro h1 h2
    exact updateGameOver_reset h1 h2
  · with_unfolding_all rfl
  · with_unfolding_all rfl
  · with_unfolding_all rfl
  · with_unfolding_all rfl
  · with_unfolding_all rfl

/-- Concrete instance of `gameOver_debounce`: with a piece over the line,
999 ms accumulates into the over-timer of `stHigh`. -/
theorem gameOver_debounce_instance :
    stHigh.hasDroppedFruit = true ∧ anyOver stHigh.bodies = true ∧
    (updateGameOver 999 stHigh).overTimer = stHigh.overTimer + 999 :=
  ⟨rfl, of_decide_eq_true (by with_unfolding_all rfl),
    ((gameOver_debounce 999 stHigh).2.1 rfl
      (of_decide_eq_true (by with_unfolding_all rfl))).1⟩

/-- C9 counterexample: a negative host-clock delta is not treated as zero
elapsed time — with dt = -5 the step accumulator drops from 100 to 95 and
the game-over timer of `stHigh50` drops from 50 to 45: both accumulate the
negative amount, refuting the claim as stated. -/
theorem negative_delta_decreases :
    tickAcc 100 (-5) = 95 ∧ tickAcc 100 (-5) < 100 ∧
    (updateGameOver (-5) stHigh50).overTimer = 45 ∧
    (updateGameOver (-5) stHigh50).overTimer < stHigh50.overTimer :=
  of_decide_eq_true (by with_unfolding_all rfl)

/-- C9 (amended): the loop applies the raw clock delta with no clamping: a
zero delta leaves the capped accumulator unchanged and adds zero to the
over-timer, while a negative delta strictly decreases the accumulator and
(when a piece is over the line) decreases the game-over timer; the code
relies on the host clock being monotone rather than guarding the delta. -/
theorem delta_unclamped (acc dt : ℚ) (st : GameState) :
    (acc ≤ 1000 → tickAcc acc 0 = acc) ∧
    (dt < 0 → acc ≤ 1000 → tickAcc acc dt = acc + dt ∧ tickAcc acc dt < acc) ∧
    (st.hasDroppedFruit = true → anyOver st.bodies = true →
      (updateGameOver dt st).overTimer = st.overTimer + dt) := by
  refine ⟨?_, ?_, ?_⟩
  · intro h
    simp only [tickAcc, add_zero]
    rw [if_neg (by linarith)]
  · intro hdt hacc
    have hnot : ¬ (1000 < acc + dt) := by linarith
    refine ⟨?_, ?_⟩
    · simp only [tickAcc]
      rw [if_neg hnot]
    · simp only [tickAcc]
      rw [if_neg hnot]
      linarith
  · intro h1 h2
    exact updateGameOver_accum h1 h2

/-- Concrete instance of `delta_unclamped` at a zero delta. -/
theorem delta_unclamped_instance :
    (100 : ℚ) ≤ 1000 ∧ tickAcc 100 0 = 100 :=
  ⟨by norm_num, (delta_unclamped 100 0 st0).1 (by norm_num)⟩

/-- C10: the best score never decreases under any operation: an executed
merge updates it to max(best, score); the cascade loop, the game-over
update and a drop never lower it; restart resets score, combo, timers and
the body population while leaving best unchanged. -/
theorem best_monotone (now dt : ℚ) (st : GameState) (p : Fruit × Fruit) (tier : ℕ)
    (cands : List (Fruit × Fruit)) (fuel : ℕ) :
    (p.1.tier + 1 < TIER_CONFIG.length →
      (execPair now st p).best = max st.best (execPair now st p).score) ∧
    st.best ≤ (execPair now st p).best ∧
    st.best ≤ (processLoop now cands fuel st).1.best ∧
    (restart st).best = st.best ∧
    (restart st).score = 0 ∧
    (restart st).comboCount = 0 ∧
    (restart st).lastMergeTime = 0 ∧
    (restart st).overTimer = 0 ∧
    (restart st).bodies = [] ∧
    (updateGameOver dt st).best = st.best ∧
    (dropFruit tier st).best = st.best := by
  refine ⟨?_, best_le_execPair now st p, best_le_processLoop now cands fuel st,
    rfl, rfl, rfl, rfl, rfl, rfl, updateGameOver_best, ?_⟩
  · intro h
    have hguard : ¬ (TIER_CONFIG.length ≤ p.1.tier + 1) := by omega
    simp only [execPair, if_neg hguard]
    split <;> rename_i hlt <;> omega
  · simp only [dropFruit]
    split
    · rfl
    · rfl

/-- Concrete instance of `best_monotone`: the `st0` merge sets best to
max(best, score). -/
theorem best_monotone_instance :
    fA.tier + 1 < TIER_CONFIG.length ∧
    (execPair 500 st0 (fA, fB)).best = max st0.best (execPair 500 st0 (fA, fB)).score :=
  ⟨by decide, (best_monotone 500 0 st0 (fA, fB) 0 [] 0).1 (by decide)⟩
